import Mathlib

/-!
Verification development for the F1 feature-construction pipeline
(`helpers.py`, `ml.py`).  The pandas code is shallowly embedded: tables
become lists of structures, column transforms become per-row functions,
numeric (float) columns are modelled over `ℚ`, and missing values
(`NaN`/`NaT`) become `Option`.
-/

namespace F1

/-! ## Time Normalizer (`helpers.convert_time`)

A raw duration cell is a day-qualified clock duration such as
"0 days 01:54:21.964000"; `pd.to_timedelta(...).dt.total_seconds()` turns it
into a real number of seconds.  We model the already-parsed components of
such a string; a missing cell (`NaT`) is `none`. -/

structure Duration where
  days : ℕ
  hours : ℕ
  minutes : ℕ
  seconds : ℕ
  micros : ℕ
deriving DecidableEq, Repr

/-- `total_seconds()` of a parsed timedelta. -/
def Duration.toSeconds (d : Duration) : ℚ :=
  (((d.days * 24 + d.hours) * 60 + d.minutes) * 60 + d.seconds : ℕ) +
    (d.micros : ℚ) / 1000000

/-- `helpers.convert_time`, per cell: convert the duration to seconds, then
`fillna(fillna_value)` exactly when a fill value was supplied. -/
def convert_time (cell : Option Duration) (fillna_value : Option ℚ) : Option ℚ :=
  match cell with
  | some d => some d.toSeconds
  | none =>
    match fillna_value with
    | some f => some f
    | none => none

/-! ## Telemetry samples and per-lap aggregation (`helpers.aggregate_lap`)

One row of the per-driver car-data table after the renaming in
`calculate_session_laps_final` (columns RPM, Speed, nGear, Throttle, Brake,
DRS, SessionTime; Brake already coerced to 0/1). -/

structure TelemetrySample where
  rpm : ℚ
  speed : ℚ
  nGear : ℚ
  throttle : ℚ
  brake : ℚ
  drs : ℚ
  sessionTime : ℚ
deriving DecidableEq, Repr

/-- Mean of a column (`Series.mean`), only ever used on non-empty windows. -/
def listMean (xs : List ℚ) : ℚ := xs.sum / xs.length

/-- `Series.min` of a non-empty column. -/
def listMin (xs : List ℚ) : Option ℚ :=
  match xs with
  | [] => none
  | x :: t => some (t.foldl min x)

/-- `Series.max` of a non-empty column. -/
def listMax (xs : List ℚ) : Option ℚ :=
  match xs with
  | [] => none
  | x :: t => some (t.foldl max x)

/-- `Series.median`: middle element of the sorted values, or the average of
the two middle elements for an even count. -/
def listMedian (xs : List ℚ) : ℚ :=
  let s := xs.insertionSort (· ≤ ·)
  if s.length % 2 = 1 then s.getD (s.length / 2) 0
  else (s.getD (s.length / 2 - 1) 0 + s.getD (s.length / 2) 0) / 2

/-- Multiplicity of `v` in the column. -/
def countVal (xs : List ℚ) (v : ℚ) : ℕ := (xs.filter (fun x => decide (x = v))).length

/-- The largest multiplicity attained in the column (0 for an empty column). -/
def maxCount (xs : List ℚ) : ℕ := ((xs.map (countVal xs)).foldl max 0)

/-- `Series.mode()`: the distinct values of maximal multiplicity, returned in
ascending order (pandas sorts the modes). -/
def modesOf (xs : List ℚ) : List ℚ :=
  (xs.dedup.insertionSort (· ≤ ·)).filter (fun v => decide (countVal xs v = maxCount xs))

/-- The aggregate record built by `helpers.aggregate_lap` (plus the LapNumber
that `calculate_lap_agg_telemetry` stamps on it). -/
structure LapAgg where
  rpmAvg : Option ℚ
  rpmMin : Option ℚ
  rpmMax : Option ℚ
  speedAvg : Option ℚ
  speedMedian : Option ℚ
  speedMin : Option ℚ
  speedMax : Option ℚ
  throttleAvg : Option ℚ
  throttleMin : Option ℚ
  throttleMax : Option ℚ
  nGearAvg : Option ℚ
  nGearMin : Option ℚ
  nGearMax : Option ℚ
  brakeCount : ℕ
  drsCount : ℕ
  nGearMode : Option ℚ
  lapNumber : ℕ := 0
deriving DecidableEq, Repr

/-- `helpers.aggregate_lap`: statistics of one telemetry window.  An empty
window yields `none` for every statistic and 0 for both counts; otherwise
mean/min/max of RPM, mean/median/min/max of Speed, mean/min/max of Throttle,
mean/min/max of nGear, counts of `Brake > 0` and `DRS > 0`, and
`mode().iloc[0]` for nGear. -/
def aggregate_lap (lap_telemetry : List TelemetrySample) : LapAgg :=
  match lap_telemetry with
  | [] =>
    { rpmAvg := none, rpmMin := none, rpmMax := none
      speedAvg := none, speedMedian := none, speedMin := none, speedMax := none
      throttleAvg := none, throttleMin := none, throttleMax := none
      nGearAvg := none, nGearMin := none, nGearMax := none
      brakeCount := 0, drsCount := 0, nGearMode := none }
  | _ =>
    let rpm := lap_telemetry.map TelemetrySample.rpm
    let speed := lap_telemetry.map TelemetrySample.speed
    let throttle := lap_telemetry.map TelemetrySample.throttle
    let gear := lap_telemetry.map TelemetrySample.nGear
    { rpmAvg := some (listMean rpm), rpmMin := listMin rpm, rpmMax := listMax rpm
      speedAvg := some (listMean speed), speedMedian := some (listMedian speed)
      speedMin := listMin speed, speedMax := listMax speed
      throttleAvg := some (listMean throttle), throttleMin := listMin throttle
      throttleMax := listMax throttle
      nGearAvg := some (listMean gear), nGearMin := listMin gear, nGearMax := listMax gear
      brakeCount := (lap_telemetry.filter (fun s => decide (s.brake > 0))).length
      drsCount := (lap_telemetry.filter (fun s => decide (s.drs > 0))).length
      nGearMode := (modesOf gear).head? }

/-! ## Telemetry Aggregator sweep (`helpers.calculate_lap_agg_telemetry`)

One row of the per-driver lap table, restricted to the columns the sweep
reads (`SessionTime`, `LapTime`, `LapNumber`). -/

structure LapRow where
  lapNumber : ℕ
  sessionTime : ℚ
  lapTime : ℚ
deriving DecidableEq, Repr

/-- `row["SessionTime"] + row["LapTime"]`. -/
def lapEnd (l : LapRow) : ℚ := l.sessionTime + l.lapTime

/-- `driver_laps["SessionTime"].min()` (the value is irrelevant for an empty
table, where the sweep produces nothing). -/
def minSessionTime (laps : List LapRow) : ℚ :=
  match laps with
  | [] => 0
  | l :: ls => (ls.map LapRow.sessionTime).foldl min l.sessionTime

/-- Window membership test of the sweep:
`(driver_car["SessionTime"] > prev_time) & (driver_car["SessionTime"] <= lap_end)`. -/
def inWindow (prev_time lap_end t : ℚ) : Bool :=
  decide (prev_time < t) && decide (t ≤ lap_end)

/-- The per-lap loop body of `calculate_lap_agg_telemetry`: for each lap row,
filter the car data to the window `(prev_time, lap_end]`, aggregate it, stamp
the lap number, and advance `prev_time` to `lap_end` unconditionally. -/
def sweepLaps (driver_car : List TelemetrySample) :
    List LapRow → ℚ → List LapAgg
  | [], _ => []
  | l :: ls, prev_time =>
    let e := lapEnd l
    let lap_telemetry := driver_car.filter (fun s => inWindow prev_time e s.sessionTime)
    { aggregate_lap lap_telemetry with lapNumber := l.lapNumber } ::
      sweepLaps driver_car ls e

/-- `helpers.calculate_lap_agg_telemetry`, modelled on a lap table already
sorted by `SessionTime` (the source sorts in place first); the final merge of
the aggregate list back onto the lap table by LapNumber is not modelled, the
function returns the `lap_aggregates` list. -/
def calculate_lap_agg_telemetry (driver_laps : List LapRow)
    (driver_car : List TelemetrySample) : List LapAgg :=
  sweepLaps driver_car driver_laps (minSessionTime driver_laps)

/-- Closed form of the sweep's left window boundary before lap `i`:
the initial boundary for lap 0, and the previous lap's `lap_end` afterwards
(advanced after every lap, whether or not its window was empty). -/
def prevBoundary (init : ℚ) (laps : List LapRow) : ℕ → ℚ
  | 0 => init
  | i + 1 =>
    match laps.get? i with
    | some l => lapEnd l
    | none => init

/-! ## Results Extractor (`helpers.get_session_results`)

Only the columns the claims are about are modelled: `ClassifiedPosition`
(a string: a numeric position or a letter code), the raw `Time` cell, and
the derived `Retired` / `FinalPosition` / `RaceTimeDiff` columns.  The
`ClassifiedPosition` column is object-typed in pandas: after the transform a
cell holds either the original string or the integer 20. -/

structure RawResultRow where
  classifiedPosition : String
  time : Option Duration
deriving DecidableEq, Repr

inductive ClassVal where
  | str (s : String)
  | int (n : ℕ)
deriving DecidableEq, Repr

structure ResultRow where
  finalPosition : ClassVal
  retired : ℕ
  raceTimeDiff : ℚ
deriving DecidableEq, Repr

/-- The per-row part of `get_session_results`: `Retired` is 1 exactly on the
'R' code; 'R' and 'D' both collapse `ClassifiedPosition` to 20; `Time` goes
through `convert_time` with fill 200. -/
def resultRowOf (r : RawResultRow) : ResultRow :=
  { retired := if r.classifiedPosition = "R" then 1 else 0
    finalPosition :=
      if r.classifiedPosition = "R" then .int 20
      else if r.classifiedPosition = "D" then .int 20
      else .str r.classifiedPosition
    raceTimeDiff := (convert_time r.time (some 200)).getD 0 }

/-- `helpers.get_session_results` on the rows of `session.results` (provider
order, leader first): map every row, then force the first row's time to 0.0. -/
def get_session_results (rows : List RawResultRow) : List ResultRow :=
  match rows.map resultRowOf with
  | [] => []
  | r :: rs => { r with raceTimeDiff := 0 } :: rs

/-! ## Lap Table Builder defaults (`helpers.get_session_laps`, lines 79-84)

Only the speed-trap / position fill block is modelled; the time conversions,
reference-table mappings and the final sort act on other columns.  Note the
source assigns the (already filled) `SpeedST` column to `SpeedI1` and
`SpeedI2`. -/

structure RawLapRow where
  speedI1 : Option ℚ
  speedI2 : Option ℚ
  speedFL : Option ℚ
  speedST : Option ℚ
  position : Option ℚ
deriving DecidableEq, Repr

structure FilledLapRow where
  speedI1 : ℚ
  speedI2 : ℚ
  speedFL : ℚ
  speedST : ℚ
  position : ℚ
deriving DecidableEq, Repr

/-- The fill block of `get_session_laps`:
`SpeedFL.fillna(0)`; `SpeedST.fillna(0)`; then `SpeedI1 = SpeedST.fillna(0)`
and `SpeedI2 = SpeedST.fillna(0)` read the SpeedST column (as written in the
source); `Position.fillna(-1)`. -/
def get_session_laps (r : RawLapRow) : FilledLapRow :=
  let fl := r.speedFL.getD 0
  let st := r.speedST.getD 0
  { speedI1 := st
    speedI2 := st
    speedFL := fl
    speedST := st
    position := r.position.getD (-1) }

/-! ## Final preprocessing: lap-count plausibility filter
(`helpers.final_preprocessing`, lines 299-305)

Rows are identified by their (Year, Location, Driver) key; location and
driver are reference-table ids.  `groupby(...).size()` plus the inner merge
on keys with `LapCount <= 80` keeps exactly the rows of groups of size at
most 80, in the original row order. -/

structure KeyedRow where
  year : ℤ
  location : ℕ
  driver : ℕ
  lapNumber : ℕ
deriving DecidableEq, Repr

/-- Size of the (Year, Location, Driver) group of a key inside the dataset. -/
def groupSize (rows : List KeyedRow) (y : ℤ) (loc drv : ℕ) : ℕ :=
  (rows.filter (fun x => decide (x.year = y ∧ x.location = loc ∧ x.driver = drv))).length

/-- The lap-count filter step of `final_preprocessing`: keep a row exactly
when its (Year, Location, Driver) group has at most 80 rows. -/
def lapCountFilter (rows : List KeyedRow) : List KeyedRow :=
  rows.filter (fun r => decide (groupSize rows r.year r.location r.driver ≤ 80))

/-! ## The spec's tie-break policy for the gear mode

The spec claims the mode's ties are broken by first occurrence in the
window's order.  This definition follows the spec's words (not the source)
so the two policies can be compared: distinct values in first-occurrence
order, restricted to those of maximal multiplicity, first one taken. -/

def dedupKeepFirst : List ℚ → List ℚ
  | [] => []
  | x :: xs => x :: (dedupKeepFirst xs).filter (fun y => decide (y ≠ x))

/-- Modelled from the spec: "most frequent value; tie-break policy:
first-occurring value among ties". -/
def firstOccMode (xs : List ℚ) : Option ℚ :=
  ((dedupKeepFirst xs).filter (fun v => decide (countVal xs v = maxCount xs))).head?

/-! ## Cross-Sectional Normalizer (`helpers.convert_to_diff`)

The 24 telemetry/timing columns averaged in `lap_avg` are indexed by
`Metric`; a feature row carries its (Year, Location) group key, the
pit-in/pit-out timestamps (after `astype(int)`), and its metric values.
Location is a reference id; other columns are untouched by the transform. -/

inductive Metric where
  | rpmAvg | rpmMin | rpmMax
  | speedAvg | speedMedian | speedMin | speedMax
  | throttleAvg | throttleMin | throttleMax
  | nGearAvg | nGearMin | nGearMax
  | brakeCount | drsCount
  | sector1Time | sector2Time | sector3Time
  | speedI1 | speedI2 | speedFL | speedST
  | sessionTime | lapTime
deriving DecidableEq, Repr

structure FeatureRow where
  year : ℤ
  location : ℕ
  pitInTime : ℤ
  pitOutTime : ℤ
  vals : Metric → ℚ

/-- The rows of one (year, location) group that are not pit-affected:
`(location_df['PitInTime'] == 0) & (location_df['PitOutTime'] == 0)`. -/
def groupNonPit (rows : List FeatureRow) (y : ℤ) (loc : ℕ) : List FeatureRow :=
  rows.filter (fun r =>
    decide (r.year = y ∧ r.location = loc ∧ r.pitInTime = 0 ∧ r.pitOutTime = 0))

/-- `lap_avg[col]`: the mean of column `m` over the group's non-pit rows
(the field baseline). -/
def fieldBaseline (rows : List FeatureRow) (y : ℤ) (loc : ℕ) (m : Metric) : ℚ :=
  ((groupNonPit rows y loc).map (fun r => r.vals m)).sum /
    ((groupNonPit rows y loc).length : ℚ)

/-- The in-place update a row receives inside the (year, location) loop:
every listed column is replaced by its value minus the group's baseline;
the key and pit columns are untouched. -/
def subtractBaseline (rows : List FeatureRow) (r : FeatureRow) : FeatureRow :=
  { r with vals := fun m => r.vals m - fieldBaseline rows r.year r.location m }

/-- `helpers.convert_to_diff`: each row belongs to exactly one
(Year, Location) group, and the nested year/location loop rewrites its
metric columns with the group-baseline delta exactly once.  The
`astype(float)` / `astype(int)` coercions are identities in this model
(counts are already `ℚ`, pit timestamps already `ℤ`). -/
def convert_to_diff (rows : List FeatureRow) : List FeatureRow :=
  rows.map (subtractBaseline rows)

/-! ## Theorems -/

/-- C8: for every column cell passed to the Time Normalizer, a valid
day-qualified duration is converted to its exact value in seconds
(86400·days + 3600·hours + 60·minutes + seconds + micros·10⁻⁶); a missing
cell is replaced by the caller-supplied fill value exactly when one is
given; and a missing cell passes through as missing when no fill value is
given. -/
theorem C8_time_normalizer :
    (∀ (d : Duration) (fillna_value : Option ℚ),
      convert_time (some d) fillna_value =
        some ((86400 * d.days + 3600 * d.hours + 60 * d.minutes + d.seconds : ℕ) +
          (d.micros : ℚ) / 1000000)) ∧
    (∀ f : ℚ, convert_time none (some f) = some f) ∧
    convert_time none none = none := by
  refine ⟨fun d fillna_value => ?_, fun f => rfl, rfl⟩
  simp only [convert_time, Duration.toSeconds, Option.some.injEq]
  push_cast
  ring

/-- C2: for an empty telemetry window, the Telemetry Aggregator returns null
for every aggregate statistic (RPM avg/min/max, speed avg/median/min/max,
throttle avg/min/max, gear avg/min/max and gear mode) and exactly 0 for both
BrakeCount and DrsCount. -/
theorem C2_empty_window :
    aggregate_lap [] =
      { rpmAvg := none, rpmMin := none, rpmMax := none
        speedAvg := none, speedMedian := none, speedMin := none, speedMax := none
        throttleAvg := none, throttleMin := none, throttleMax := none
        nGearAvg := none, nGearMin := none, nGearMax := none
        brakeCount := 0, drsCount := 0, nGearMode := none } := rfl

/-- A lap row whose raw SpeedI1 (280), SpeedI2 (250) and SpeedST (300)
readings all differ, with SpeedFL 310 and no recorded position. -/
def rawLapBugInput : RawLapRow :=
  { speedI1 := some 280, speedI2 := some 250, speedFL := some 310
    speedST := some 300, position := none }

/-- C6: the claim (and the source's own comment, "set Speed trap columns to
0 if they are NaN") says each speed-trap field keeps its own raw value with
missing values replaced by 0 — but the code assigns the filled SpeedST
column to SpeedI1 and SpeedI2, so a row with raw SpeedI1 = 280 and
SpeedI2 = 250 comes out with SpeedI1 = SpeedI2 = 300 (= SpeedST).  SpeedFL,
SpeedST and the -1 position default behave as claimed. -/
theorem C6_speed_trap_bug :
    get_session_laps rawLapBugInput =
      { speedI1 := 300, speedI2 := 300, speedFL := 310, speedST := 300
        position := -1 } ∧
    rawLapBugInput.speedI1 = some 280 ∧ rawLapBugInput.speedI2 = some 250 ∧
    (300 : ℚ) ≠ 280 ∧ (300 : ℚ) ≠ 250 := by
  refine ⟨rfl, rfl, rfl, by decide, by decide⟩

/-- A two-row session: the leader classified "1" with an absolute finishing
time, then a driver classified "R" (retired) whose raw Time cell is,
unusually, present: 5 seconds. -/
def retiredWithTimeRows : List RawResultRow :=
  [{ classifiedPosition := "1", time := some ⟨0, 1, 50, 21, 964000⟩ },
   { classifiedPosition := "R", time := some ⟨0, 0, 0, 5, 0⟩ }]

/-- C4, counterexample: the 200.0 sentinel comes from filling a *missing*
Time cell, not from the 'R' code itself — a driver classified 'R' whose raw
Time is present gets that time in seconds (here 5.0), not 200.0, so the
claim as stated fails. -/
theorem C4_counterexample :
    (get_session_results retiredWithTimeRows)[1]? =
      some { finalPosition := .int 20, retired := 1, raceTimeDiff := 5 } ∧
    (5 : ℚ) ≠ 200 := by
  have h1 : get_session_results retiredWithTimeRows =
      [{ resultRowOf { classifiedPosition := "1", time := some ⟨0, 1, 50, 21, 964000⟩ } with
          raceTimeDiff := 0 },
       resultRowOf { classifiedPosition := "R", time := some ⟨0, 0, 0, 5, 0⟩ }] := rfl
  rw [h1]
  simp only [List.getElem?_cons_succ, List.getElem?_cons_zero]
  norm_num [resultRowOf, convert_time, Duration.toSeconds]

/-- C4, amended: for every session, a driver row (other than the leader row)
whose ClassifiedPosition is 'R' *and whose raw Time is missing* maps to
Retired = 1, FinalPosition = 20 and RaceTimeDiff = 200.0; the Retired flag
is 1 exactly on the 'R' code; a 'D' code yields FinalPosition = 20 with
Retired = 0; and the first row's RaceTimeDiff is forced to exactly 0.0
regardless of its raw value. -/
theorem C4_results_extractor (rows : List RawResultRow) (i : ℕ) (r : RawResultRow)
    (hi : rows[i]? = some r) (h0 : 0 < i) :
    ((get_session_results rows)[i]? = some (resultRowOf r)) ∧
    (r.classifiedPosition = "R" ∧ r.time = none →
      (get_session_results rows)[i]? =
        some { finalPosition := .int 20, retired := 1, raceTimeDiff := 200 }) ∧
    (resultRowOf r).retired = (if r.classifiedPosition = "R" then 1 else 0) ∧
    (r.classifiedPosition = "D" →
      (resultRowOf r).finalPosition = .int 20 ∧ (resultRowOf r).retired = 0) ∧
    (∀ s rest, rows = s :: rest →
      (get_session_results rows)[0]? =
        some { resultRowOf s with raceTimeDiff := 0 }) := by
  obtain ⟨j, rfl⟩ : ∃ j, i = j + 1 := ⟨i - 1, by omega⟩
  obtain ⟨s, rest, rfl⟩ : ∃ s rest, rows = s :: rest := by
    cases rows with
    | nil => simp at hi
    | cons s rest => exact ⟨s, rest, rfl⟩
  have hout : (get_session_results (s :: rest))[j + 1]? = some (resultRowOf r) := by
    show ({ resultRowOf s with raceTimeDiff := 0 } :: rest.map resultRowOf)[j + 1]? = _
    simp only [List.getElem?_cons_succ, List.getElem?_map]
    simp only [List.getElem?_cons_succ] at hi
    rw [hi]
    rfl
  refine ⟨hout, fun ⟨hR, hT⟩ => ?_, ?_, fun hD => ?_, fun s' rest' hsr => ?_⟩
  · rw [hout]
    simp [resultRowOf, hR, hT, convert_time]
  · rfl
  · have hRD : r.classifiedPosition ≠ "R" := by rw [hD]; decide
    constructor
    · simp [resultRowOf, hD, hRD]
    · simp [resultRowOf, hRD]
  · cases hsr
    show ({ resultRowOf s with raceTimeDiff := 0 } :: rest.map resultRowOf)[0]? = _
    simp

/-- C4 witness: a three-row session (leader "1"; a retired driver 'R' with
missing Time; a disqualified driver 'D'), evaluated at the retired row. -/
theorem C4_results_extractor_witness :
    (get_session_results
        [{ classifiedPosition := "1", time := some ⟨0, 1, 50, 21, 964000⟩ },
         { classifiedPosition := "R", time := none },
         { classifiedPosition := "D", time := some ⟨0, 0, 0, 9, 0⟩ }])[1]? =
      some { finalPosition := .int 20, retired := 1, raceTimeDiff := 200 } :=
  (C4_results_extractor
      [{ classifiedPosition := "1", time := some ⟨0, 1, 50, 21, 964000⟩ },
       { classifiedPosition := "R", time := none },
       { classifiedPosition := "D", time := some ⟨0, 0, 0, 9, 0⟩ }]
      1 { classifiedPosition := "R", time := none } rfl (by decide)).2.1 ⟨rfl, rfl⟩

/-- C7: the lap-count filter of `final_preprocessing` keeps a row exactly
when its (year, location, driver) group has at most 80 rows: every row of a
group with more than 80 rows is removed, and every row of a group with at
most 80 rows is kept (with its multiplicity). -/
theorem C7_lap_count_filter (rows : List KeyedRow) (r : KeyedRow) :
    (r ∈ lapCountFilter rows ↔
      r ∈ rows ∧ groupSize rows r.year r.location r.driver ≤ 80) ∧
    (groupSize rows r.year r.location r.driver ≤ 80 →
      (lapCountFilter rows).count r = rows.count r) ∧
    (80 < groupSize rows r.year r.location r.driver → r ∉ lapCountFilter rows) := by
  refine ⟨?_, fun hle => ?_, fun hgt hmem => ?_⟩
  · simp [lapCountFilter, List.mem_filter]
  · exact List.count_filter (by simpa using hle)
  · have := (by simp [lapCountFilter, List.mem_filter] at hmem; exact hmem.2 :
      groupSize rows r.year r.location r.driver ≤ 80)
    omega

/-- 81 laps recorded for driver 7 at (2024, location 3), alongside a single
lap for driver 8: the oversized group is dropped, the small one kept. -/
def overfullRows : List KeyedRow :=
  List.replicate 81 { year := 2024, location := 3, driver := 7, lapNumber := 1 } ++
    [{ year := 2024, location := 3, driver := 8, lapNumber := 1 }]

/-- C7 witness: the 81-row group's row is removed and the 1-row group's row
is kept with its multiplicity. -/
theorem C7_lap_count_filter_witness :
    ({ year := 2024, location := 3, driver := 7, lapNumber := 1 } : KeyedRow) ∉
      lapCountFilter overfullRows ∧
    (lapCountFilter overfullRows).count
        { year := 2024, location := 3, driver := 8, lapNumber := 1 } =
      overfullRows.count { year := 2024, location := 3, driver := 8, lapNumber := 1 } :=
  ⟨(C7_lap_count_filter overfullRows _).2.2 (by decide),
   (C7_lap_count_filter overfullRows _).2.1 (by decide)⟩

theorem foldl_min_le_init (xs : List ℚ) (a : ℚ) : xs.foldl min a ≤ a := by
  induction xs generalizing a with
  | nil => exact le_rfl
  | cons x t ih => exact le_trans (ih (min a x)) (min_le_left a x)

theorem foldl_min_le_mem (xs : List ℚ) (a x : ℚ) (hx : x ∈ xs) : xs.foldl min a ≤ x := by
  induction xs generalizing a with
  | nil => cases hx
  | cons y t ih =>
    rcases List.mem_cons.mp hx with h | h
    · subst h
      exact le_trans (foldl_min_le_init t (min a x)) (min_le_right a x)
    · exact ih (min a y) h

theorem foldl_min_eq_or_mem (xs : List ℚ) (a : ℚ) :
    xs.foldl min a = a ∨ xs.foldl min a ∈ xs := by
  induction xs generalizing a with
  | nil => exact Or.inl rfl
  | cons x t ih =>
    rcases ih (min a x) with h | h
    · rcases min_cases a x with ⟨he, _⟩ | ⟨he, _⟩
      · exact Or.inl (by rw [List.foldl_cons, h, he])
      · exact Or.inr (by rw [List.foldl_cons, h, he]; exact List.mem_cons_self x t)
    · exact Or.inr (List.mem_cons_of_mem x h)

theorem sweepLaps_length (car : List TelemetrySample) (laps : List LapRow) (prev : ℚ) :
    (sweepLaps car laps prev).length = laps.length := by
  induction laps generalizing prev with
  | nil => rfl
  | cons l ls ih => simp [sweepLaps, ih]

theorem prevBoundary_succ_cons (init : ℚ) (l : LapRow) (ls : List LapRow) (j : ℕ)
    (h : j < ls.length) :
    prevBoundary init (l :: ls) (j + 1) = prevBoundary (lapEnd l) ls j := by
  cases j with
  | zero => simp [prevBoundary]
  | succ k =>
    have hk : k < ls.length := Nat.lt_of_succ_lt h
    have hget : ls[k]? = some (ls.get ⟨k, hk⟩) := by
      simp [List.getElem?_eq_getElem hk]
    simp [prevBoundary, hget]

theorem sweepLaps_getElem (car : List TelemetrySample) (laps : List LapRow) (prev : ℚ)
    (i : ℕ) (h : i < laps.length) :
    (sweepLaps car laps prev)[i]? =
      some { aggregate_lap (car.filter (fun s =>
          inWindow (prevBoundary prev laps i) (lapEnd (laps.get ⟨i, h⟩)) s.sessionTime))
        with lapNumber := (laps.get ⟨i, h⟩).lapNumber } := by
  induction laps generalizing prev i with
  | nil => cases h
  | cons l ls ih =>
    cases i with
    | zero =>
      show ({ aggregate_lap _ with lapNumber := l.lapNumber } :: sweepLaps car ls (lapEnd l))[0]? = _
      simp [prevBoundary]
    | succ j =>
      have hj : j < ls.length := Nat.lt_of_succ_lt_succ h
      show ({ aggregate_lap _ with lapNumber := l.lapNumber } :: sweepLaps car ls (lapEnd l))[j + 1]? = _
      rw [List.getElem?_cons_succ, ih (lapEnd l) j hj,
        prevBoundary_succ_cons prev l ls j hj]
      rfl

/-- C1: for a driver lap table sorted by session time, the sweep produces
one aggregate per lap; the prev boundary starts at the minimum session time
of the lap table (a genuine minimum attained by some lap); and lap `i` is
attributed exactly the telemetry samples with
`prevBoundary < sample.sessionTime ≤ lapEnd`, where `lapEnd` is the lap's
session time plus its lap time and `prevBoundary` is the previous lap's
`lapEnd` (advanced after every lap, empty window or not), the minimum
session time for lap 0. -/
theorem C1_window_attribution (driver_laps : List LapRow) (driver_car : List TelemetrySample)
    (i : ℕ) (h : i < driver_laps.length) :
    (calculate_lap_agg_telemetry driver_laps driver_car).length = driver_laps.length ∧
    (∀ l ∈ driver_laps, minSessionTime driver_laps ≤ l.sessionTime) ∧
    minSessionTime driver_laps ∈ driver_laps.map LapRow.sessionTime ∧
    (∀ j, (hj : j < driver_laps.length) →
      prevBoundary (minSessionTime driver_laps) driver_laps (j + 1) =
        lapEnd (driver_laps.get ⟨j, hj⟩)) ∧
    (calculate_lap_agg_telemetry driver_laps driver_car)[i]? =
      some { aggregate_lap (driver_car.filter (fun s =>
          inWindow (prevBoundary (minSessionTime driver_laps) driver_laps i)
            (lapEnd (driver_laps.get ⟨i, h⟩)) s.sessionTime))
        with lapNumber := (driver_laps.get ⟨i, h⟩).lapNumber } := by
  obtain ⟨l0, ls0, rfl⟩ : ∃ l0 ls0, driver_laps = l0 :: ls0 := by
    cases driver_laps with
    | nil => cases h
    | cons l0 ls0 => exact ⟨l0, ls0, rfl⟩
  refine ⟨sweepLaps_length _ _ _, ?_, ?_, ?_, sweepLaps_getElem _ _ _ i h⟩
  · intro l hl
    rcases List.mem_cons.mp hl with rfl | hl
    · exact foldl_min_le_init _ _
    · exact foldl_min_le_mem _ _ _ (List.mem_map_of_mem LapRow.sessionTime hl)
  · have hm : minSessionTime (l0 :: ls0) =
        (ls0.map LapRow.sessionTime).foldl min l0.sessionTime := rfl
    rw [List.map_cons, hm]
    rcases foldl_min_eq_or_mem (ls0.map LapRow.sessionTime) l0.sessionTime with he | he
    · rw [he]
      exact List.mem_cons_self _ _
    · exact List.mem_cons_of_mem _ he
  · intro j hj
    have hget : (l0 :: ls0)[j]? = some ((l0 :: ls0).get ⟨j, hj⟩) := by
      simp [List.getElem?_eq_getElem hj]
    simp [prevBoundary, hget]

/-- Two laps of ten and five seconds, back to back from session time 0, and
two telemetry samples: one exactly on the shared boundary (t = 10, belongs
to lap 1) and one inside lap 2's window (t = 12). -/
def boundaryLaps : List LapRow := [⟨1, 0, 10⟩, ⟨2, 10, 5⟩]

/-- One telemetry sample exactly on the laps' shared boundary (t = 10) and
one inside lap 2's window (t = 12). -/
def boundaryCar : List TelemetrySample :=
  [{ rpm := 9000, speed := 250, nGear := 6, throttle := 90, brake := 0, drs := 0,
      sessionTime := 10 },
   { rpm := 9500, speed := 260, nGear := 7, throttle := 95, brake := 1, drs := 0,
      sessionTime := 12 }]

/-- C1 witness: the sweep's second entry aggregates exactly the samples in
the window `(10, 15]` of lap 2. -/
theorem C1_window_attribution_witness :
    (calculate_lap_agg_telemetry boundaryLaps boundaryCar)[1]? =
      some { aggregate_lap (boundaryCar.filter (fun s =>
          inWindow (prevBoundary (minSessionTime boundaryLaps) boundaryLaps 1)
            (lapEnd (boundaryLaps.get ⟨1, by decide⟩)) s.sessionTime))
        with lapNumber := (boundaryLaps.get ⟨1, by decide⟩).lapNumber } :=
  (C1_window_attribution boundaryLaps boundaryCar 1 (by decide)).2.2.2.2

theorem lapEnd_chain (laps : List LapRow)
    (hmono : ∀ j, (hj : j + 1 < laps.length) →
      lapEnd (laps.get ⟨j, Nat.lt_of_succ_lt hj⟩) ≤ lapEnd (laps.get ⟨j + 1, hj⟩))
    (i j : ℕ) (hij : i ≤ j) (hj : j < laps.length) :
    lapEnd (laps.get ⟨i, Nat.lt_of_le_of_lt hij hj⟩) ≤ lapEnd (laps.get ⟨j, hj⟩) := by
  induction j with
  | zero =>
    have : i = 0 := Nat.le_zero.mp hij
    subst this
    exact le_rfl
  | succ k ih =>
    rcases Nat.lt_or_ge i (k + 1) with hlt | hge
    · have hik : i ≤ k := Nat.lt_succ_iff.mp hlt
      exact le_trans (ih hik (Nat.lt_of_succ_lt hj)) (hmono k hj)
    · have : i = k + 1 := Nat.le_antisymm hij hge
      subst this
      exact le_rfl

/-- C9, amended: consecutive windows share a boundary (each window's
left-exclusive bound is the previous lap's `lapEnd`), and **provided the
sequence of lap ends is non-decreasing** the windows are pairwise disjoint,
so each sample is attributed to at most one lap.  (Without monotonicity the
boundary can move backwards and a sample can be attributed to several laps;
see the counterexample.) -/
theorem C9_windows_disjoint (laps : List LapRow) (init : ℚ)
    (hmono : ∀ j, (hj : j + 1 < laps.length) →
      lapEnd (laps.get ⟨j, Nat.lt_of_succ_lt hj⟩) ≤ lapEnd (laps.get ⟨j + 1, hj⟩)) :
    (∀ j, (hj : j < laps.length) →
      prevBoundary init laps (j + 1) = lapEnd (laps.get ⟨j, hj⟩)) ∧
    (∀ i j, (hij : i < j) → (hj : j < laps.length) → ∀ t : ℚ,
      inWindow (prevBoundary init laps i)
        (lapEnd (laps.get ⟨i, Nat.lt_trans hij hj⟩)) t = true →
      inWindow (prevBoundary init laps j) (lapEnd (laps.get ⟨j, hj⟩)) t = true →
      False) := by
  have hbound : ∀ j, (hj : j < laps.length) →
      prevBoundary init laps (j + 1) = lapEnd (laps.get ⟨j, hj⟩) := by
    intro j hj
    have hget : laps[j]? = some (laps.get ⟨j, hj⟩) := by
      simp [List.getElem?_eq_getElem hj]
    simp [prevBoundary, hget]
  refine ⟨hbound, fun i j hij hj t hwi hwj => ?_⟩
  obtain ⟨m, rfl⟩ : ∃ m, j = m + 1 := ⟨j - 1, by omega⟩
  have hm : m < laps.length := Nat.lt_of_succ_lt hj
  have him : i ≤ m := Nat.lt_succ_iff.mp hij
  have hchain : lapEnd (laps.get ⟨i, Nat.lt_of_le_of_lt him hm⟩) ≤
      lapEnd (laps.get ⟨m, hm⟩) := lapEnd_chain laps hmono i m him hm
  have h1 : t ≤ lapEnd (laps.get ⟨i, Nat.lt_trans hij hj⟩) := by
    have := (Bool.and_eq_true _ _).mp hwi
    exact of_decide_eq_true this.2
  have h2 : prevBoundary init laps (m + 1) < t := by
    have := (Bool.and_eq_true _ _).mp hwj
    exact of_decide_eq_true this.1
  rw [hbound m hm] at h2
  exact absurd (lt_of_le_of_lt (le_trans h1 hchain) h2) (lt_irrefl t)

/-- Three laps whose ends are 10, 3 and 6: the second window is `(10, 3]`
(empty) yet the boundary still moves back to 3, so the third window
`(3, 6]` re-enters the first window `(0, 10]`. -/
def backwardsLaps : List LapRow := [⟨1, 0, 10⟩, ⟨2, 2, 1⟩, ⟨3, 4, 2⟩]

/-- C9, counterexample: with the single telemetry sample at t = 5 (brake
active), the sweep counts that one sample in lap 1 *and* in lap 3 — the
brake-count column of the output is [1, 0, 1] although the whole car-data
stream holds exactly one brake-active sample.  Samples are not attributed
to at most one lap when a later lap end is smaller than an earlier one. -/
theorem C9_counterexample :
    (calculate_lap_agg_telemetry backwardsLaps
        [{ rpm := 9000, speed := 200, nGear := 5, throttle := 80, brake := 1, drs := 0,
            sessionTime := 5 }]).map LapAgg.brakeCount = [1, 0, 1] := by
  norm_num [calculate_lap_agg_telemetry, backwardsLaps, sweepLaps, minSessionTime,
    lapEnd, inWindow, aggregate_lap, List.filter]

/-- C9 witness: on two back-to-back laps with non-decreasing ends, window
1's left-exclusive bound is exactly lap 0's `lapEnd`. -/
theorem C9_windows_disjoint_witness :
    prevBoundary 0 boundaryLaps 1 = lapEnd (boundaryLaps.get ⟨0, by decide⟩) :=
  (C9_windows_disjoint boundaryLaps 0 (by
      intro j hj
      have : j = 0 := by
        have := hj
        simp [boundaryLaps] at this
        omega
      subst this
      show lapEnd ⟨1, 0, 10⟩ ≤ lapEnd ⟨2, 10, 5⟩
      norm_num [lapEnd])).1 0 (by decide)

theorem init_le_foldl_max (xs : List ℕ) (a : ℕ) : a ≤ xs.foldl max a := by
  induction xs generalizing a with
  | nil => exact le_rfl
  | cons x t ih => exact le_trans (le_max_left a x) (ih (max a x))

theorem mem_le_foldl_max (xs : List ℕ) (a x : ℕ) (hx : x ∈ xs) : x ≤ xs.foldl max a := by
  induction xs generalizing a with
  | nil => cases hx
  | cons y t ih =>
    rcases List.mem_cons.mp hx with h | h
    · subst h
      exact le_trans (le_max_right a x) (init_le_foldl_max t (max a x))
    · exact ih (max a y) h

theorem foldl_max_eq_or_mem (xs : List ℕ) (a : ℕ) :
    xs.foldl max a = a ∨ xs.foldl max a ∈ xs := by
  induction xs generalizing a with
  | nil => exact Or.inl rfl
  | cons x t ih =>
    rcases ih (max a x) with h | h
    · rcases max_cases a x with ⟨he, _⟩ | ⟨he, _⟩
      · exact Or.inl (by rw [List.foldl_cons, h, he])
      · exact Or.inr (by rw [List.foldl_cons, h, he]; exact List.mem_cons_self x t)
    · exact Or.inr (List.mem_cons_of_mem x h)

theorem countVal_pos_of_mem (xs : List ℚ) (x : ℚ) (hx : x ∈ xs) : 0 < countVal xs x := by
  have : x ∈ xs.filter (fun y => decide (y = x)) :=
    List.mem_filter.mpr ⟨hx, by simp⟩
  have hne : xs.filter (fun y => decide (y = x)) ≠ [] := List.ne_nil_of_mem this
  have := List.length_pos.mpr hne
  simpa [countVal] using this

theorem countVal_le_maxCount (xs : List ℚ) (v : ℚ) (hv : v ∈ xs) :
    countVal xs v ≤ maxCount xs :=
  mem_le_foldl_max _ 0 _ (List.mem_map_of_mem (countVal xs) hv)

theorem maxCount_attained (xs : List ℚ) (hne : xs ≠ []) :
    ∃ v ∈ xs, countVal xs v = maxCount xs := by
  rcases foldl_max_eq_or_mem (xs.map (countVal xs)) 0 with h | h
  · obtain ⟨x0, hx0⟩ : ∃ x0, x0 ∈ xs := List.exists_mem_of_ne_nil xs hne
    have h1 : 0 < countVal xs x0 := countVal_pos_of_mem xs x0 hx0
    have h2 : countVal xs x0 ≤ maxCount xs := countVal_le_maxCount xs x0 hx0
    have h0 : maxCount xs = 0 := h
    omega
  · obtain ⟨v, hv, he⟩ := List.mem_map.mp h
    exact ⟨v, hv, he⟩

/-- Full characterization of `Series.mode().iloc[0]` on a non-empty column:
it is a value of the column of maximal multiplicity, and it is the
*smallest* value among those attaining maximal multiplicity. -/
theorem modesOf_head_spec (xs : List ℚ) (hne : xs ≠ []) :
    ∃ m, (modesOf xs).head? = some m ∧ m ∈ xs ∧ countVal xs m = maxCount xs ∧
      (∀ v ∈ xs, countVal xs v ≤ maxCount xs) ∧
      (∀ v ∈ xs, countVal xs v = maxCount xs → m ≤ v) := by
  have hsorted : List.Sorted (· ≤ ·) (xs.dedup.insertionSort (· ≤ ·)) :=
    List.sorted_insertionSort _ _
  have hmemsort : ∀ v : ℚ, v ∈ xs.dedup.insertionSort (· ≤ ·) ↔ v ∈ xs := by
    intro v
    rw [List.mem_insertionSort, List.mem_dedup]
  obtain ⟨v0, hv0, hc0⟩ := maxCount_attained xs hne
  have hv0m : v0 ∈ modesOf xs :=
    List.mem_filter.mpr ⟨(hmemsort v0).mpr hv0, by simp [hc0]⟩
  obtain ⟨m, rest, hmr⟩ : ∃ m rest, modesOf xs = m :: rest :=
    List.exists_cons_of_ne_nil (List.ne_nil_of_mem hv0m)
  have hmmem : m ∈ modesOf xs := hmr ▸ List.mem_cons_self m rest
  have hmfilter := List.mem_filter.mp hmmem
  have hmxs : m ∈ xs := (hmemsort m).mp hmfilter.1
  have hmc : countVal xs m = maxCount xs := by
    have := hmfilter.2
    simpa using this
  have hmodes_sorted : List.Sorted (· ≤ ·) (modesOf xs) := hsorted.filter _
  refine ⟨m, by rw [hmr]; rfl, hmxs, hmc, fun v hv => countVal_le_maxCount xs v hv,
    fun v hv hvc => ?_⟩
  have hvm : v ∈ modesOf xs :=
    List.mem_filter.mpr ⟨(hmemsort v).mpr hv, by simp [hvc]⟩
  rw [hmr] at hvm
  rcases List.mem_cons.mp hvm with rfl | hvrest
  · exact le_rfl
  · exact List.rel_of_sorted_cons (hmr ▸ hmodes_sorted) v hvrest

/-- C5, amended: for every non-empty telemetry window, the gear mode is the
most frequent gear value in the window, with ties broken by the *smallest*
tied value (pandas sorts the modes ascending and the code takes the first):
[3,3,4,4,4,5] still gives 4 and [3,3,4,4] still gives 3 (3 being the
smallest of the tied values), but first occurrence in window order is not
the policy. -/
theorem C5_gear_mode (samples : List TelemetrySample) (hne : samples ≠ []) :
    ∃ m, (aggregate_lap samples).nGearMode = some m ∧
      m ∈ samples.map TelemetrySample.nGear ∧
      countVal (samples.map TelemetrySample.nGear) m =
        maxCount (samples.map TelemetrySample.nGear) ∧
      (∀ v ∈ samples.map TelemetrySample.nGear,
        countVal (samples.map TelemetrySample.nGear) v ≤
          maxCount (samples.map TelemetrySample.nGear)) ∧
      (∀ v ∈ samples.map TelemetrySample.nGear,
        countVal (samples.map TelemetrySample.nGear) v =
          maxCount (samples.map TelemetrySample.nGear) → m ≤ v) := by
  obtain ⟨s, t, rfl⟩ : ∃ s t, samples = s :: t := by
    cases samples with
    | nil => exact absurd rfl hne
    | cons s t => exact ⟨s, t, rfl⟩
  have hmode : (aggregate_lap (s :: t)).nGearMode =
      (modesOf ((s :: t).map TelemetrySample.nGear)).head? := rfl
  rw [hmode]
  exact modesOf_head_spec _ (by simp)

/-- A telemetry window whose gear column is [4,4,3,3]: gears 3 and 4 tie. -/
def tiedGearSamples : List TelemetrySample :=
  [{ rpm := 0, speed := 0, nGear := 4, throttle := 0, brake := 0, drs := 0, sessionTime := 1 },
   { rpm := 0, speed := 0, nGear := 4, throttle := 0, brake := 0, drs := 0, sessionTime := 2 },
   { rpm := 0, speed := 0, nGear := 3, throttle := 0, brake := 0, drs := 0, sessionTime := 3 },
   { rpm := 0, speed := 0, nGear := 3, throttle := 0, brake := 0, drs := 0, sessionTime := 4 }]

/-- C5, counterexample: on the window with gears [4,4,3,3], first-occurrence
tie-breaking (the spec's policy) picks 4, but the code returns 3 — pandas
breaks the tie by the smallest value, not by occurrence order. -/
theorem C5_counterexample :
    (aggregate_lap tiedGearSamples).nGearMode = some 3 ∧
    firstOccMode (tiedGearSamples.map TelemetrySample.nGear) = some 4 ∧
    (aggregate_lap tiedGearSamples).nGearMode ≠
      firstOccMode (tiedGearSamples.map TelemetrySample.nGear) := by
  refine ⟨by decide, by decide, by decide⟩

/-- A telemetry window whose gear column is [3,3,4,4]. -/
def tiedGearSamples34 : List TelemetrySample :=
  [{ rpm := 0, speed := 0, nGear := 3, throttle := 0, brake := 0, drs := 0, sessionTime := 1 },
   { rpm := 0, speed := 0, nGear := 3, throttle := 0, brake := 0, drs := 0, sessionTime := 2 },
   { rpm := 0, speed := 0, nGear := 4, throttle := 0, brake := 0, drs := 0, sessionTime := 3 },
   { rpm := 0, speed := 0, nGear := 4, throttle := 0, brake := 0, drs := 0, sessionTime := 4 }]

/-- C5 witness: the amended characterization applied to the window with
gears [3,3,4,4], whose mode indeed evaluates to 3 (the smallest tied
value). -/
theorem C5_gear_mode_witness :
    (aggregate_lap tiedGearSamples34).nGearMode = some 3 ∧
    (∃ m, (aggregate_lap tiedGearSamples34).nGearMode = some m ∧
      m ∈ tiedGearSamples34.map TelemetrySample.nGear ∧
      countVal (tiedGearSamples34.map TelemetrySample.nGear) m =
        maxCount (tiedGearSamples34.map TelemetrySample.nGear) ∧
      (∀ v ∈ tiedGearSamples34.map TelemetrySample.nGear,
        countVal (tiedGearSamples34.map TelemetrySample.nGear) v ≤
          maxCount (tiedGearSamples34.map TelemetrySample.nGear)) ∧
      (∀ v ∈ tiedGearSamples34.map TelemetrySample.nGear,
        countVal (tiedGearSamples34.map TelemetrySample.nGear) v =
          maxCount (tiedGearSamples34.map TelemetrySample.nGear) → m ≤ v)) :=
  ⟨by decide, C5_gear_mode tiedGearSamples34 (by decide)⟩

theorem groupNonPit_key (rows : List FeatureRow) (y : ℤ) (loc : ℕ) (x : FeatureRow)
    (hx : x ∈ groupNonPit rows y loc) :
    x ∈ rows ∧ x.year = y ∧ x.location = loc ∧ x.pitInTime = 0 ∧ x.pitOutTime = 0 := by
  have h := List.mem_filter.mp hx
  refine ⟨h.1, ?_⟩
  simpa using h.2

theorem groupNonPit_map (rows : List FeatureRow) (y : ℤ) (loc : ℕ) :
    groupNonPit (convert_to_diff rows) y loc =
      (groupNonPit rows y loc).map (subtractBaseline rows) := by
  show List.filter _ (rows.map (subtractBaseline rows)) = _
  rw [List.filter_map]
  rfl

theorem sum_map_sub_const (g : List FeatureRow) (f : FeatureRow → ℚ) (B : ℚ) :
    (g.map (fun x => f x - B)).sum = (g.map f).sum - g.length * B := by
  induction g with
  | nil => simp
  | cons x t ih =>
    simp only [List.map_cons, List.sum_cons, ih, List.length_cons]
    push_cast
    ring

/-- After one pass of `convert_to_diff`, the field baseline of any group
that had at least one non-pit lap is exactly zero. -/
theorem baseline_diff_zero (rows : List FeatureRow) (y : ℤ) (loc : ℕ) (m : Metric)
    (hnp : 0 < (groupNonPit rows y loc).length) :
    fieldBaseline (convert_to_diff rows) y loc m = 0 := by
  have hcongr : ∀ x ∈ groupNonPit rows y loc,
      ((fun r : FeatureRow => r.vals m) ∘ subtractBaseline rows) x =
        x.vals m - fieldBaseline rows y loc m := by
    intro x hx
    obtain ⟨-, hy, hl, -, -⟩ := groupNonPit_key rows y loc x hx
    simp [subtractBaseline, hy, hl]
  have hn0 : (((groupNonPit rows y loc).length : ℕ) : ℚ) ≠ 0 := by
    exact_mod_cast Nat.pos_iff_ne_zero.mp hnp
  rw [fieldBaseline, groupNonPit_map, List.map_map, List.length_map,
    List.map_congr_left hcongr, sum_map_sub_const]
  rw [fieldBaseline, mul_comm, div_mul_cancel₀ _ hn0, sub_self, zero_div]

theorem subtractBaseline_eq_self (rows' : List FeatureRow) (x : FeatureRow)
    (h0 : ∀ m, fieldBaseline rows' x.year x.location m = 0) :
    subtractBaseline rows' x = x := by
  obtain ⟨y, loc, pin, pout, v⟩ := x
  show FeatureRow.mk y loc pin pout (fun m => v m - fieldBaseline rows' y loc m) =
    FeatureRow.mk y loc pin pout v
  exact congrArg (FeatureRow.mk y loc pin pout) (funext fun m => by rw [h0 m, sub_zero])

/-- C3: for every (year, location) group, `convert_to_diff` computes each
metric's baseline as the mean over only the group's laps with both pit
timestamps zero, and replaces every lap's value (pit-affected laps
included) by the original value minus that baseline, leaving the group key
and pit timestamps untouched.  Stated for rows whose group has at least one
non-pit lap: with none, the pandas mean is NaN, which the rational model
does not represent. -/
theorem C3_cross_sectional (rows : List FeatureRow) (i : ℕ) (r : FeatureRow)
    (hi : rows[i]? = some r)
    (_hnp : 0 < (groupNonPit rows r.year r.location).length) :
    (∀ x, x ∈ groupNonPit rows r.year r.location ↔
      x ∈ rows ∧ x.year = r.year ∧ x.location = r.location ∧
        x.pitInTime = 0 ∧ x.pitOutTime = 0) ∧
    (∃ out, (convert_to_diff rows)[i]? = some out ∧
      out.year = r.year ∧ out.location = r.location ∧
      out.pitInTime = r.pitInTime ∧ out.pitOutTime = r.pitOutTime ∧
      ∀ m, out.vals m = r.vals m -
        ((groupNonPit rows r.year r.location).map (fun x => x.vals m)).sum /
          (((groupNonPit rows r.year r.location).length : ℕ) : ℚ)) := by
  constructor
  · intro x
    simp [groupNonPit, List.mem_filter, and_assoc]
  · refine ⟨subtractBaseline rows r, ?_, rfl, rfl, rfl, rfl, fun m => rfl⟩
    show (rows.map (subtractBaseline rows))[i]? = _
    rw [List.getElem?_map, hi]
    rfl

/-- Two non-pit laps with all metrics 10000 and 12000, and one pit-affected
lap (pit-in 5000) with all metrics 11500, all at (2024, location 1). -/
def pitRowA : FeatureRow :=
  { year := 2024, location := 1, pitInTime := 0, pitOutTime := 0, vals := fun _ => 10000 }

def pitRowB : FeatureRow :=
  { year := 2024, location := 1, pitInTime := 0, pitOutTime := 0, vals := fun _ => 12000 }

def pitRowC : FeatureRow :=
  { year := 2024, location := 1, pitInTime := 5000, pitOutTime := 0, vals := fun _ => 11500 }

def pitRows : List FeatureRow := [pitRowA, pitRowB, pitRowC]

/-- C3 witness: the baseline of (2024, location 1) is (10000 + 12000)/2 =
11000 (the pit-affected 11500 lap is excluded), and the first lap's
normalized value is 10000 - 11000 = -1000. -/
theorem C3_cross_sectional_witness :
    fieldBaseline pitRows 2024 1 Metric.rpmAvg = 11000 ∧
    (subtractBaseline pitRows pitRowA).vals Metric.rpmAvg = -1000 ∧
    (subtractBaseline pitRows pitRowB).vals Metric.rpmAvg = 1000 ∧
    (subtractBaseline pitRows pitRowC).vals Metric.rpmAvg = 500 ∧
    (∃ out, (convert_to_diff pitRows)[0]? = some out ∧
      out.year = pitRowA.year ∧ out.location = pitRowA.location ∧
      out.pitInTime = pitRowA.pitInTime ∧ out.pitOutTime = pitRowA.pitOutTime ∧
      ∀ m, out.vals m = pitRowA.vals m -
        ((groupNonPit pitRows pitRowA.year pitRowA.location).map (fun x => x.vals m)).sum /
          (((groupNonPit pitRows pitRowA.year pitRowA.location).length : ℕ) : ℚ)) := by
  have hbase : fieldBaseline pitRows 2024 1 Metric.rpmAvg = 11000 := by
    norm_num [fieldBaseline, groupNonPit, pitRows, pitRowA, pitRowB, pitRowC,
      List.filter]
  refine ⟨hbase, ?_, ?_, ?_, (C3_cross_sectional pitRows 0 pitRowA rfl (by decide)).2⟩
  · show pitRowA.vals Metric.rpmAvg - fieldBaseline pitRows pitRowA.year pitRowA.location
      Metric.rpmAvg = -1000
    rw [show fieldBaseline pitRows pitRowA.year pitRowA.location Metric.rpmAvg =
        fieldBaseline pitRows 2024 1 Metric.rpmAvg from rfl, hbase]
    norm_num [pitRowA]
  · show pitRowB.vals Metric.rpmAvg - fieldBaseline pitRows pitRowB.year pitRowB.location
      Metric.rpmAvg = 1000
    rw [show fieldBaseline pitRows pitRowB.year pitRowB.location Metric.rpmAvg =
        fieldBaseline pitRows 2024 1 Metric.rpmAvg from rfl, hbase]
    norm_num [pitRowB]
  · show pitRowC.vals Metric.rpmAvg - fieldBaseline pitRows pitRowC.year pitRowC.location
      Metric.rpmAvg = 500
    rw [show fieldBaseline pitRows pitRowC.year pitRowC.location Metric.rpmAvg =
        fieldBaseline pitRows 2024 1 Metric.rpmAvg from rfl, hbase]
    norm_num [pitRowC]

/-- C10: applying `convert_to_diff` a second time changes nothing, provided
every (year, location) group of the dataset contains at least one non-pit
lap: after the first application each group's non-pit mean is exactly zero,
so the second subtraction subtracts zero everywhere. -/
theorem C10_convert_to_diff_idempotent (rows : List FeatureRow)
    (h : ∀ r ∈ rows, 0 < (groupNonPit rows r.year r.location).length) :
    convert_to_diff (convert_to_diff rows) = convert_to_diff rows := by
  have hfix : ∀ x ∈ convert_to_diff rows, subtractBaseline (convert_to_diff rows) x = x := by
    intro x hx
    obtain ⟨r, hr, rfl⟩ := List.mem_map.mp hx
    apply subtractBaseline_eq_self
    intro m
    exact baseline_diff_zero rows r.year r.location m (h r hr)
  show (convert_to_diff rows).map (subtractBaseline (convert_to_diff rows)) = convert_to_diff rows
  rw [List.map_congr_left hfix]
  exact List.map_id _

/-- C10 witness: on the three-lap example dataset (whose only group has two
non-pit laps) the normalizer is idempotent. -/
theorem C10_convert_to_diff_idempotent_witness :
    convert_to_diff (convert_to_diff pitRows) = convert_to_diff pitRows :=
  C10_convert_to_diff_idempotent pitRows (by
    intro r hr
    fin_cases hr <;> decide)

end F1
